/-
Verification of the force-directed graph layout and interaction engine of
src/components/NetworkGraph.tsx against its specification.

The component is shallowly embedded below. Machine reals (JS doubles) are
modelled as rationals: every arithmetic step the claims depend on
(transform algebra, the centering force, velocity integration, drag pins)
is exact rational arithmetic in the source, so no rounding is lost. The
pieces of the d3 library that the component configures and that decide the
claims (forceSimulation tick integration, forceCenter, forceLink id
resolution, zoom transforms, drag event dispatch and click suppression)
are embedded from the d3 sources (d3-force simulation.js, center.js,
link.js; d3-zoom transform.js; d3-drag drag.js) at their default settings,
which is what the component uses. Force computations that involve square
roots (charge, collision, the link spring, the phyllotaxis initial
placement) are taken as parameters: no claim depends on their values, only
on where they write.
-/
import Mathlib

namespace NG

/-- Node record of types.ts (PolicyNode). The group field is a string at
runtime (the TS enum is erased); x and y are the optional pre-seeded D3
coordinates. -/
structure PolicyNode where
  id : String
  label : String
  group : String
  description : Option String := none
  x : Option ℚ := none
  y : Option ℚ := none
  deriving DecidableEq

/-- Link record of types.ts (PolicyLink) as produced upstream: source and
target are node id strings, which d3.forceLink later resolves to node
objects. -/
structure PolicyLink where
  source : String
  target : String
  relation : String
  deriving DecidableEq

/-- GraphData record of types.ts. -/
structure GraphData where
  nodes : List PolicyNode
  links : List PolicyLink
  deriving DecidableEq

/-- A simulation node: the per-render shallow copy made on line 61 of
NetworkGraph.tsx, after d3 forceSimulation initializeNodes has given it
kinematic fields (position, velocity, and the optional drag pin fx/fy). -/
structure SimNode where
  id : String
  label : String
  group : String
  description : Option String := none
  x : ℚ := 0
  y : ℚ := 0
  vx : ℚ := 0
  vy : ℚ := 0
  fx : Option ℚ := none
  fy : Option ℚ := none
  deriving DecidableEq

/-- D3 initializeNodes for one node: a position already present on the
datum is kept, otherwise the deterministic phyllotaxis placement (here the
parameter ip, since it involves square roots) is used; velocity starts at
zero and the node is unpinned. -/
def initSimNode (ip : Nat → ℚ × ℚ) (i : Nat) (n : PolicyNode) : SimNode :=
  { id := n.id, label := n.label, group := n.group, description := n.description,
    x := n.x.getD (ip i).1, y := n.y.getD (ip i).2,
    vx := 0, vy := 0, fx := none, fy := none }

/-- Line 61 of NetworkGraph.tsx, data.nodes.map(d => (copy of d)), composed
with d3 initializeNodes: the simulation array of fresh shallow copies. -/
def buildSimNodes (ip : Nat → ℚ × ℚ) (ns : List PolicyNode) : List SimNode :=
  ((List.range ns.length).zip ns).map (fun p => initSimNode ip p.1 p.2)

/-- D3 forceLink id resolution (link.js find): the node map built with the
id accessor keeps the last node for a duplicate id, and a missing id throws
the error that find raises. We return the index of the resolved node. -/
def findNodeIdxD3 (ns : List SimNode) (nid : String) : Except String Nat :=
  match ns.reverse.findIdx? (fun n => n.id == nid) with
  | some j => .ok (ns.length - 1 - j)
  | none => .error ("node not found: " ++ nid)

/-- A link after d3 forceLink initialize has replaced its source and target
id strings by references to the resolved node objects (indices here). -/
structure ResolvedLink where
  source : Nat
  target : Nat
  relation : String
  deriving DecidableEq

/-- D3 forceLink initialize on one link: resolve both endpoints, throwing
(Except.error) on the first missing id, as link.js does. -/
def resolveLink (ns : List SimNode) (l : PolicyLink) : Except String ResolvedLink := do
  let s ← findNodeIdxD3 ns l.source
  let t ← findNodeIdxD3 ns l.target
  pure { source := s, target := t, relation := l.relation }

/-- D3 forceLink initialize over the whole link array, stopping at the
first thrown error. -/
def resolveLinks (ns : List SimNode) (ls : List PolicyLink) : Except String (List ResolvedLink) :=
  ls.mapM (resolveLink ns)

/-- D3 default velocity decay multiplier (simulation.js: velocityDecay =
0.6, the exposed decay being 1 - 0.6 = 0.4). -/
def velocityDecayD3 : ℚ := 3/5

/-- D3 default alphaMin (simulation.js). -/
def alphaMinD3 : ℚ := 1/1000

/-- The d3 default alphaDecay is 1 - alphaMin ^ (1/300), an irrational
number; it is kept as a parameter since no claim depends on its value. -/
structure SimConfig where
  alphaDecay : ℚ

/-- The mutable simulation state: the d3 internal alpha and alphaTarget,
whether the internal stepper timer is running, and the node array. -/
structure SimState where
  alpha : ℚ
  alphaTarget : ℚ
  running : Bool
  nodes : List SimNode
  deriving DecidableEq

/-- A d3 force as the tick loop sees it: given the current alpha it maps
the node array (mutating velocities or positions). The charge, collide and
link forces of the component are irrational and enter as parameters of
this type. -/
abbrev Force := ℚ → List SimNode → List SimNode

/-- D3 forceCenter (center.js): translate all nodes so that their centroid
moves to the target by sx = (mean x - cx) * strength, strength being 1 by
default as in the component. -/
def forceCenterD3 (cx cy strength : ℚ) (ns : List SimNode) : List SimNode :=
  if ns.isEmpty then ns else
    let n : ℚ := (ns.length : ℚ)
    let sx := ((ns.map (fun d => d.x)).sum / n - cx) * strength
    let sy := ((ns.map (fun d => d.y)).sum / n - cy) * strength
    ns.map (fun d => { d with x := d.x - sx, y := d.y - sy })

/-- D3 simulation.js per-node integration: an unpinned coordinate gets
velocity decay then Euler integration; a pinned coordinate is forced to
the pin and its velocity zeroed. -/
def integrateNodeD3 (d : SimNode) : SimNode :=
  let d1 := match d.fx with
    | none => let vx := d.vx * velocityDecayD3; { d with vx := vx, x := d.x + vx }
    | some fx => { d with x := fx, vx := 0 }
  match d1.fy with
  | none => let vy := d1.vy * velocityDecayD3; { d1 with vy := vy, y := d1.y + vy }
  | some fy => { d1 with y := fy, vy := 0 }

/-- D3 simulation.js tick at the default settings of the component: alpha
moves toward alphaTarget, the four registered forces run in registration
order (link, charge, center, collide as on lines 73 to 77 of
NetworkGraph.tsx), then every node is integrated. -/
def simTick (cfg : SimConfig) (fLink fCharge fCollide : Force) (cx cy : ℚ)
    (s : SimState) : SimState :=
  let alpha := s.alpha + (s.alphaTarget - s.alpha) * cfg.alphaDecay
  let ns := fCollide alpha (forceCenterD3 cx cy 1 (fCharge alpha (fLink alpha s.nodes)))
  { s with alpha := alpha, nodes := ns.map integrateNodeD3 }

/-- D3 simulation.stop: the internal stepper timer is stopped; nothing
else in the state is touched. -/
def stopSim (s : SimState) : SimState := { s with running := false }

/-- D3 simulation.restart: the internal stepper timer is restarted. -/
def restartSim (s : SimState) : SimState := { s with running := true }

/-- One invocation of the d3 stepper (simulation.js step): if the timer is
stopped nothing happens at all; otherwise one tick runs and the timer
stops itself when alpha falls below alphaMin. -/
def scheduledStep (cfg : SimConfig) (fLink fCharge fCollide : Force) (cx cy : ℚ)
    (s : SimState) : SimState :=
  if s.running then
    let s1 := simTick cfg fLink fCharge fCollide cx cy s
    if s1.alpha < alphaMinD3 then stopSim s1 else s1
  else s

/-- Update of the single list element at an index, used to model the drag
handlers mutating the datum object bound to the dragged element. -/
def modifyIdx {α : Type} (f : α → α) : Nat → List α → List α
  | _, [] => []
  | 0, d :: ds => f d :: ds
  | i + 1, d :: ds => d :: modifyIdx f i ds

/-- Lines 169 to 173 of NetworkGraph.tsx: when no other gesture is active,
set alphaTarget to 0.3 and restart the stepper, then pin the dragged node
at its current position (by the d3 drag start convention this equals the
pointer position mapped into the coordinate system of the node group). -/
def dragstarted (eventActive : Bool) (s : SimState) (i : Nat) : SimState :=
  let s1 := if eventActive then s else restartSim { s with alphaTarget := 3/10 }
  { s1 with nodes := modifyIdx (fun d => { d with fx := some d.x, fy := some d.y }) i s1.nodes }

/-- Lines 175 to 178 of NetworkGraph.tsx: move the pin of the dragged node
to the pointer position; nothing else, in particular no velocity, is
touched. -/
def dragged (ex ey : ℚ) (s : SimState) (i : Nat) : SimState :=
  { s with nodes := modifyIdx (fun d => { d with fx := some ex, fy := some ey }) i s.nodes }

/-- Lines 180 to 184 of NetworkGraph.tsx: when no other gesture remains
active, set alphaTarget back to 0 (letting the simulation cool), then
clear the pin. -/
def dragended (eventActive : Bool) (s : SimState) (i : Nat) : SimState :=
  let s1 := if eventActive then s else { s with alphaTarget := 0 }
  { s1 with nodes := modifyIdx (fun d => { d with fx := none, fy := none }) i s1.nodes }

/-- D3 zoom transform (d3-zoom transform.js): scale k with translation
(x, y). -/
structure ZoomTransform where
  k : ℚ
  x : ℚ
  y : ℚ
  deriving DecidableEq

/-- The identity transform the zoomed group starts with. -/
def identityTransform : ZoomTransform := { k := 1, x := 0, y := 0 }

/-- Transform.apply of d3-zoom transform.js. -/
def transformApply (t : ZoomTransform) (p : ℚ × ℚ) : ℚ × ℚ :=
  (p.1 * t.k + t.x, p.2 * t.k + t.y)

/-- Transform.invert of d3-zoom transform.js. -/
def transformInvert (t : ZoomTransform) (p : ℚ × ℚ) : ℚ × ℚ :=
  ((p.1 - t.x) / t.k, (p.2 - t.y) / t.k)

/-- Lower end of the scaleExtent configured on line 66 of
NetworkGraph.tsx. -/
def scaleExtentMin : ℚ := 1/10

/-- Upper end of the scaleExtent configured on line 66 of
NetworkGraph.tsx. -/
def scaleExtentMax : ℚ := 4

/-- The GROUP_COLORS palette of NetworkGraph.tsx, lines 11 to 20. -/
def GROUP_COLORS : List (String × String) :=
  [("Policy", "#4285F4"),
   ("Organization", "#EA4335"),
   ("Beneficiary", "#34A853"),
   ("Requirement", "#FBBC04"),
   ("Concept", "#A142F4"),
   ("Table", "#202124"),
   ("Column", "#5F6368"),
   ("DataPoint", "#DADCE0")]

/-- Fill color of a node, lines 131 and 139 of NetworkGraph.tsx: the
palette entry for the group of the node, or the neutral gray fallback
when the group is not a palette key (the JS expression
GROUP_COLORS[d.group] with a default on undefined). -/
def nodeFill (d : SimNode) : String :=
  (GROUP_COLORS.lookup d.group).getD "#94a3b8"

/-- Everything the effect body of NetworkGraph.tsx builds that the claims
mention: the running simulation, the resolved link array, the captured
centering target, and the transform of the zoomed group. -/
structure Engine where
  sim : SimState
  resolvedLinks : List ResolvedLink
  centerTarget : ℚ × ℚ
  gTransform : ZoomTransform
  deriving DecidableEq

/-- Outcome of one run of the effect body (lines 54 to 187): the early
return on an empty node list, an exception escaping the body (the throw
of d3 forceLink id resolution), or a built engine. -/
inductive SetupResult where
  | noop
  | thrown (msg : String)
  | engine (e : Engine)
  deriving DecidableEq

/-- The effect body of NetworkGraph.tsx: return early when the node list
is empty (line 55, before any DOM or simulation work); otherwise copy the
nodes, resolve the links (d3 forceLink throws on a missing endpoint), and
start a fresh simulation with alpha 1, alphaTarget 0, the centering force
aimed at the middle of the current dimensions, and the identity group
transform. -/
def effectSetup (ip : Nat → ℚ × ℚ) (data : GraphData) (w h : ℚ) : SetupResult :=
  if data.nodes.isEmpty then .noop
  else
    match resolveLinks (buildSimNodes ip data.nodes) data.links with
    | .error msg => .thrown msg
    | .ok rls =>
      .engine
        { sim := { alpha := 1, alphaTarget := 0, running := true,
                   nodes := buildSimNodes ip data.nodes },
          resolvedLinks := rls,
          centerTarget := (w/2, h/2),
          gTransform := identityTransform }

/-- The zoom handler of lines 67 to 69: the event transform is written to
the transform attribute of the rendered group and nothing else happens. -/
def zoomed (t : ZoomTransform) (e : Engine) : Engine := { e with gTransform := t }

/-- Display position of a node: its simulation position, as written by the
tick handler on line 166, composed with the transform of the group it is
rendered inside. -/
def nodeScreenPos (e : Engine) (i : Nat) : Option (ℚ × ℚ) :=
  e.sim.nodes[i]?.map (fun d => transformApply e.gTransform (d.x, d.y))

/-- Mounted component: the result of the latest effect run together with
the simulations whose cleanup has already executed. -/
structure ComponentState where
  current : SetupResult
  retired : List SimState

/-- The effect cleanup of line 186, return () => simulation.stop(): when
the previous effect run built an engine, its simulation is stopped and
retired; an early-returned run registered no cleanup. -/
def cleanupCurrent : SetupResult → List SimState → List SimState
  | .engine e, r => stopSim e.sim :: r
  | _, r => r

/-- First run of the effect on mount. -/
def mountC (ip : Nat → ℚ × ℚ) (data : GraphData) (w h : ℚ) : ComponentState :=
  { current := effectSetup ip data w h, retired := [] }

/-- A re-run of the effect when a dependency (data or dimensions, line
187) changes: React executes the cleanup of the previous run and then the
effect body. -/
def rerender (c : ComponentState) (ip : Nat → ℚ × ℚ) (data : GraphData) (w h : ℚ) :
    ComponentState :=
  { current := effectSetup ip data w h, retired := cleanupCurrent c.current c.retired }

/-- Component teardown: React executes the cleanup of the last effect
run. -/
def unmountC (c : ComponentState) : ComponentState :=
  { current := .noop, retired := cleanupCurrent c.current c.retired }

/-- One stepper invocation delivered to the current engine, using the
centering target captured by the effect that built it. -/
def stepCurrent (cfg : SimConfig) (fLink fCharge fCollide : Force) (c : ComponentState) :
    ComponentState :=
  match c.current with
  | .engine e =>
    let sim2 := scheduledStep cfg fLink fCharge fCollide e.centerTarget.1 e.centerTarget.2 e.sim
    { c with current := .engine { e with sim := sim2 } }
  | _ => c

/-- Positions of the simulation nodes of the current engine. -/
def simPositions (c : ComponentState) : List (ℚ × ℚ) :=
  match c.current with
  | .engine e => e.sim.nodes.map (fun d => (d.x, d.y))
  | _ => []

/-- A pointer gesture on a node: the press position and the positions of
the pointer moves until release, all in the coordinate space the d3 drag
behavior reports. -/
structure Gesture where
  press : ℚ × ℚ
  moves : List (ℚ × ℚ)

/-- Squared distance, as d3-drag computes dx * dx + dy * dy from the press
point. -/
def dist2 (p q : ℚ × ℚ) : ℚ := (p.1 - q.1) * (p.1 - q.1) + (p.2 - q.2) * (p.2 - q.2)

/-- The d3-drag default clickDistance squared: zero (drag.js,
clickDistance2 = 0); the component never changes it. -/
def clickDistance2D3 : ℚ := 0

/-- The d3-drag moved flag: latched once any pointer move gets farther
from the press point than the click distance. While the flag is set the
ensuing click event is suppressed (drag.js, yesdrag). -/
def gestureMoved (g : Gesture) : Bool :=
  g.moves.any (fun p => decide (clickDistance2D3 < dist2 p g.press))

/-- Result of one full gesture on a node: the simulation state at release
and the list of selection callback invocations (line 114 to 117, the
click handler calls onNodeClick with the bound node datum). -/
structure GestureResult where
  final : SimState
  clicks : List SimNode

/-- One complete press, move, release sequence on node i, as d3-drag
dispatches it for a sole gesture: start on press (event.active false),
drag on every move, end on release (event.active false), then the click
event, which d3 suppresses exactly when the moved flag was latched. -/
def runNodeGesture (s : SimState) (i : Nat) (g : Gesture) : GestureResult :=
  let s1 := dragstarted false s i
  let s2 := g.moves.foldl (fun st p => dragged p.1 p.2 st i) s1
  let s3 := dragended false s2 i
  { final := s3,
    clicks := if gestureMoved g then [] else s3.nodes[i]?.toList }

/-- A JS node object as the heap model sees it: every field of the records
the caller hands in, with the kinematic fields possibly undefined. Fields
are primitives, so the spread copy on line 61 copies all of them. -/
structure JSNode where
  id : String
  label : String
  group : String
  description : Option String := none
  x : Option ℚ := none
  y : Option ℚ := none
  vx : Option ℚ := none
  vy : Option ℚ := none
  fx : Option ℚ := none
  fy : Option ℚ := none
  deriving DecidableEq, Inhabited

/-- A link endpoint: the id string the upstream producer wrote, or the
address of a node object once d3 forceLink has resolved it in place. -/
inductive NodeRef where
  | byId (id : String)
  | byObj (addr : Nat)
  deriving DecidableEq, Inhabited

/-- A JS link object in the heap model. -/
structure JSLink where
  source : NodeRef
  target : NodeRef
  relation : String
  index : Option Nat := none
  deriving DecidableEq, Inhabited

/-- The object heap: node objects and link objects addressed by
position. -/
structure JSHeap where
  nodeObjs : List JSNode
  linkObjs : List JSLink
  deriving DecidableEq

/-- Read the node objects at a list of addresses. -/
def readNodes (h : JSHeap) (addrs : List Nat) : List JSNode :=
  addrs.map (fun a => h.nodeObjs[a]?.getD default)

/-- Read the link objects at a list of addresses. -/
def readLinks (h : JSHeap) (addrs : List Nat) : List JSLink :=
  addrs.map (fun a => h.linkObjs[a]?.getD default)

/-- Overwrite one node object. -/
def writeNode (h : JSHeap) (a : Nat) (v : JSNode) : JSHeap :=
  { h with nodeObjs := h.nodeObjs.set a v }

/-- Overwrite one link object. -/
def writeLink (h : JSHeap) (a : Nat) (v : JSLink) : JSHeap :=
  { h with linkObjs := h.linkObjs.set a v }

/-- Overwrite a batch of node objects. -/
def writeNodes (h : JSHeap) (ps : List (Nat × JSNode)) : JSHeap :=
  ps.foldl (fun acc p => writeNode acc p.1 p.2) h

/-- Overwrite a batch of link objects. -/
def writeLinks (h : JSHeap) (ps : List (Nat × JSLink)) : JSHeap :=
  ps.foldl (fun acc p => writeLink acc p.1 p.2) h

/-- Fresh addresses the node copies of line 61 are allocated at. -/
def simNodeAddrs (h : JSHeap) (nAddrs : List Nat) : List Nat :=
  (List.range nAddrs.length).map (fun j => h.nodeObjs.length + j)

/-- Fresh addresses the link copies of line 62 are allocated at. -/
def simLinkAddrs (h : JSHeap) (lAddrs : List Nat) : List Nat :=
  (List.range lAddrs.length).map (fun j => h.linkObjs.length + j)

/-- Lines 61 and 62 of NetworkGraph.tsx in the heap model:
data.nodes.map(d => (spread copy of d)) and the same for links allocate
fresh shallow copies of every listed object; the originals stay where
they are. -/
def setupHeap (h : JSHeap) (nAddrs lAddrs : List Nat) : JSHeap :=
  { nodeObjs := h.nodeObjs ++ readNodes h nAddrs,
    linkObjs := h.linkObjs ++ readLinks h lAddrs }

/-- The operations the engine performs after setup, each parametrised by
whatever values the d3 internals compute: a tick writes force and
integration results over the simulation node array, the drag handlers
write the pin fields of the dragged copy, forceLink initialize rewrites
the endpoint fields of the link copies, zoom writes only the group
transform attribute, and a click only invokes the callback. -/
inductive EngineOp where
  | tick (f : List JSNode → List JSNode)
  | dragStart (k : Nat)
  | dragMove (k : Nat) (ex ey : ℚ)
  | dragEnd (k : Nat)
  | resolve (f : List JSNode → JSLink → JSLink)
  | zoomPan (t : ZoomTransform)
  | click (k : Nat)

/-- Apply one engine operation to the heap. All node writes land at
addresses taken from simN (the copy array) and all link writes at
addresses from simL. -/
def applyOp (simN simL : List Nat) (h : JSHeap) : EngineOp → JSHeap
  | .tick f => writeNodes h (simN.zip (f (readNodes h simN)))
  | .dragStart k =>
    match simN[k]? with
    | some a =>
      let d := h.nodeObjs[a]?.getD default
      writeNode h a { d with fx := d.x, fy := d.y }
    | none => h
  | .dragMove k ex ey =>
    match simN[k]? with
    | some a =>
      let d := h.nodeObjs[a]?.getD default
      writeNode h a { d with fx := some ex, fy := some ey }
    | none => h
  | .dragEnd k =>
    match simN[k]? with
    | some a =>
      let d := h.nodeObjs[a]?.getD default
      writeNode h a { d with fx := none, fy := none }
    | none => h
  | .resolve f => writeLinks h (simL.zip ((readLinks h simL).map (f (readNodes h simN))))
  | .zoomPan _ => h
  | .click _ => h

/-- Apply a sequence of engine operations. -/
def applyOps (simN simL : List Nat) (h : JSHeap) (ops : List EngineOp) : JSHeap :=
  ops.foldl (applyOp simN simL) h

/-- One render of the component followed by an arbitrary interaction
sequence, in the heap model: copy the caller objects, then run the
operations against the copies. -/
def runEngineOps (h : JSHeap) (nAddrs lAddrs : List Nat) (ops : List EngineOp) : JSHeap :=
  applyOps (simNodeAddrs h nAddrs) (simLinkAddrs h lAddrs) (setupHeap h nAddrs lAddrs) ops

/-- Concrete initial-placement parameter used by concrete scenarios. -/
def ipZero : Nat → ℚ × ℚ := fun _ => (0, 0)

/-- Identity force standing in for a parametrised force that happens to
contribute nothing, as the charge, collide and link forces do on a graph
with one node and no links. -/
def idForce : Force := fun _ ns => ns

/-- A concrete rational alphaDecay for concrete scenarios. -/
def cfg50 : SimConfig := { alphaDecay := 1/50 }

/-- One-node GraphData with a pre-seeded position, for the resize
scenario. -/
def resizeData : GraphData :=
  { nodes := [{ id := "A", label := "Node A", group := "Policy", x := some 0, y := some 0 }],
    links := [] }

/-- The component mounted at 800 by 600 with resizeData. -/
def resizeMounted : ComponentState := mountC ipZero resizeData 800 600

/-- The same component after one simulation tick has moved the node (on a
one-node, zero-link graph the charge, collide and link forces contribute
nothing and the centering force moves the node to the middle). -/
def resizeTicked : ComponentState := stepCurrent cfg50 idForce idForce idForce resizeMounted

/-- The same component after the container is resized to 1000 by 800: the
dimensions dependency changes and the effect re-runs on the same data. -/
def resizeResized : ComponentState := rerender resizeTicked ipZero resizeData 1000 800

/-- The engine the resize re-run builds, written out. -/
def resizeEngineW : Engine :=
  { sim := { alpha := 1, alphaTarget := 0, running := true,
             nodes := [{ id := "A", label := "Node A", group := "Policy", x := 0, y := 0 }] },
    resolvedLinks := [],
    centerTarget := (500, 400),
    gTransform := identityTransform }

/-- GraphData whose only link names the absent node id Z, the concrete
scenario of the spec. -/
def badLinkData : GraphData :=
  { nodes := [{ id := "A", label := "Node A", group := "Policy" }],
    links := [{ source := "A", target := "Z", relation := "requires" }] }

/-- A concrete node for gesture scenarios. -/
def clickNode : SimNode := { id := "A", label := "Node A", group := "Policy" }

/-- A concrete simulation holding just clickNode. -/
def clickSim : SimState :=
  { alpha := 1, alphaTarget := 0, running := true, nodes := [clickNode] }

/-- A press at the origin followed by a single one-pixel pointer move:
movement well under the two-pixel threshold the spec names. -/
def microMoveGesture : Gesture := { press := (0, 0), moves := [(1, 0)] }

/-- A press and release with no pointer movement at all. -/
def stillGesture : Gesture := { press := (0, 0), moves := [] }

/-- A caller heap with one node object and one link object. -/
def heap0 : JSHeap :=
  { nodeObjs := [{ id := "A", label := "Node A", group := "Policy" }],
    linkObjs := [{ source := .byId "A", target := .byId "A", relation := "self" }] }

/-- A concrete interaction sequence touching every kind of engine
operation. -/
def heapOps : List EngineOp :=
  [.dragStart 0, .tick (fun ns => ns), .dragMove 0 5 7,
   .resolve (fun _ l => l), .zoomPan { k := 2, x := 1, y := 1 },
   .dragEnd 0, .click 0]

/-- The engine that mounting with resizeData at 800 by 600 builds. -/
def resizeEngine800 : Engine :=
  { sim := { alpha := 1, alphaTarget := 0, running := true,
             nodes := [{ id := "A", label := "Node A", group := "Policy", x := 0, y := 0 }] },
    resolvedLinks := [],
    centerTarget := (400, 300),
    gTransform := identityTransform }

/-- The engine state after the one concrete tick: the centering force has
moved the node to the middle of the 800 by 600 view. -/
def resizeTickedEngine : Engine :=
  { sim := { alpha := 49/50, alphaTarget := 0, running := true,
             nodes := [{ id := "A", label := "Node A", group := "Policy", x := 400, y := 300 }] },
    resolvedLinks := [],
    centerTarget := (400, 300),
    gTransform := identityTransform }

theorem getElem?_modifyIdx_self {α : Type} (f : α → α) :
    ∀ (i : Nat) (l : List α), (modifyIdx f i l)[i]? = (l[i]?).map f
  | _, [] => by simp [modifyIdx]
  | 0, _ :: _ => by simp [modifyIdx]
  | i + 1, a :: as => by
    simpa [modifyIdx] using getElem?_modifyIdx_self f i as

/-- C6: composing the d3 zoom transform apply with its invert returns the
original point for every transform whose scale lies in the clamped
scaleExtent of the component; over the rationals the round trip is exact,
hence in particular within floating point tolerance. -/
theorem c6_transform_roundtrip (t : ZoomTransform) (p : ℚ × ℚ)
    (hmin : scaleExtentMin ≤ t.k) (_hmax : t.k ≤ scaleExtentMax) :
    transformInvert t (transformApply t p) = p := by
  have hk : t.k ≠ 0 := by
    intro h
    rw [h] at hmin
    norm_num [scaleExtentMin] at hmin
  simp only [transformApply, transformInvert]
  have h1 : (p.1 * t.k + t.x - t.x) / t.k = p.1 := by field_simp
  have h2 : (p.2 * t.k + t.y - t.y) / t.k = p.2 := by field_simp
  rw [h1, h2]

theorem c6_transform_roundtrip_witness :
    transformInvert { k := 2, x := 3, y := 5 }
      (transformApply { k := 2, x := 3, y := 5 } (7, 11)) = (7, 11) :=
  c6_transform_roundtrip { k := 2, x := 3, y := 5 } (7, 11)
    (by norm_num [scaleExtentMin]) (by norm_num [scaleExtentMax])

/-- C5: a zoom or pan event leaves every kinematic field of every node
untouched; the handler only rewrites the transform attribute of the
rendered group, so the displayed position is the simulation position
composed with the new transform. -/
theorem c5_zoom_preserves_kinematics (t : ZoomTransform) (e : Engine) :
    (zoomed t e).sim = e.sim ∧
    (∀ i : Nat, nodeScreenPos (zoomed t e) i =
      (e.sim.nodes[i]?).map (fun d => transformApply t (d.x, d.y))) :=
  ⟨rfl, fun _ => rfl⟩

/-- C9: the fill color of a node is the closed GROUP_COLORS palette entry
for its group, and a group that is not a palette key falls back to the
neutral gray 94a3b8 instead of erroring. -/
theorem c9_palette_fallback (d : SimNode) (c : String) :
    (GROUP_COLORS.lookup d.group = some c → nodeFill d = c) ∧
    (GROUP_COLORS.lookup d.group = none → nodeFill d = "#94a3b8") := by
  constructor <;> intro h <;> simp [nodeFill, h]

theorem c9_palette_fallback_witness :
    nodeFill { id := "p", label := "p", group := "Policy" } = "#4285F4" ∧
    nodeFill { id := "m", label := "m", group := "Mystery" } = "#94a3b8" :=
  ⟨(c9_palette_fallback { id := "p", label := "p", group := "Policy" } "#4285F4").1 (by decide),
   (c9_palette_fallback { id := "m", label := "m", group := "Mystery" } "#4285F4").2 (by decide)⟩

/-- C8: on a GraphData with an empty node list the effect body returns
before touching the DOM or starting any simulation (line 55), and the
early-returned run registers no cleanup, so there is no simulation work
and no error. -/
theorem c8_empty_graph_noop (ip : Nat → ℚ × ℚ) (data : GraphData) (w h : ℚ)
    (hempty : data.nodes = []) :
    effectSetup ip data w h = .noop ∧
    cleanupCurrent (effectSetup ip data w h) [] = [] := by
  have hni : data.nodes.isEmpty = true := by simp [hempty]
  constructor <;> simp [effectSetup, hni, cleanupCurrent]

theorem c8_empty_graph_noop_witness :
    effectSetup ipZero { nodes := [], links := [] } 800 600 = .noop ∧
    cleanupCurrent (effectSetup ipZero { nodes := [], links := [] } 800 600) [] = [] :=
  c8_empty_graph_noop ipZero { nodes := [], links := [] } 800 600 rfl

/-- C2: on the concrete scenario of the spec, a link whose target id Z
names no node, the effect body does not drop the link: the d3 forceLink id
resolution throws the error, node not found, and the exception escapes the
engine, contradicting the claimed drop-and-continue policy. -/
theorem c2_missing_endpoint_throws :
    effectSetup ipZero badLinkData 800 600 = .thrown "node not found: Z" := by
  rfl

/-- C3: the drag controller follows the pin lifecycle. At drag start with
no other gesture active the simulation is reheated (alphaTarget 0.3 and
the stepper restarted) and the node is pinned at its current position,
which by the d3 drag start convention (event.x equals the subject
position at start) is the pointer position mapped into simulation
coordinates. During dragging, each move rewrites the pin to the new
pointer position, leaving both velocity components untouched. At drag end
the pin is cleared and alphaTarget returns to 0 so the simulation can
cool. -/
theorem c3_drag_pin_lifecycle (s : SimState) (i : Nat) (d : SimNode) (sx sy ex ey : ℚ)
    (hd : s.nodes[i]? = some d) (hsx : sx = d.x) (hsy : sy = d.y) :
    ((dragstarted false s i).alphaTarget = 3/10 ∧
     (dragstarted false s i).running = true ∧
     (dragstarted false s i).nodes[i]? = some { d with fx := some sx, fy := some sy }) ∧
    ((dragged ex ey s i).nodes[i]? =
       some { d with fx := some ex, fy := some ey, vx := d.vx, vy := d.vy } ∧
     (dragged ex ey s i).alpha = s.alpha ∧
     (dragged ex ey s i).alphaTarget = s.alphaTarget) ∧
    ((dragended false s i).alphaTarget = 0 ∧
     (dragended false s i).nodes[i]? = some { d with fx := none, fy := none }) := by
  subst hsx hsy
  refine ⟨⟨rfl, rfl, ?_⟩, ⟨?_, rfl, rfl⟩, rfl, ?_⟩
  all_goals
    simp [dragstarted, dragged, dragended, restartSim, getElem?_modifyIdx_self, hd]

theorem resolveLinks_nil (ns : List SimNode) : resolveLinks ns [] = .ok [] := rfl

theorem resizeData_simNodes :
    buildSimNodes ipZero resizeData.nodes =
      [{ id := "A", label := "Node A", group := "Policy", x := 0, y := 0 }] := by
  simp [buildSimNodes, resizeData, initSimNode, ipZero, List.range_succ]

theorem resizeMounted_current : resizeMounted.current = .engine resizeEngine800 := by
  show effectSetup ipZero resizeData 800 600 = _
  unfold effectSetup
  rw [resizeData_simNodes]
  norm_num [show resizeData.nodes.isEmpty = false from rfl,
    show resizeData.links = ([] : List PolicyLink) from rfl, resolveLinks_nil,
    resizeEngine800, identityTransform]

theorem resizeTicked_current : resizeTicked.current = .engine resizeTickedEngine := by
  have h8 := resizeMounted_current
  norm_num [resizeTicked, stepCurrent, h8, scheduledStep, simTick, idForce, forceCenterD3,
    integrateNodeD3, velocityDecayD3, alphaMinD3, cfg50, resizeEngine800, resizeTickedEngine]

theorem resizeResized_current : resizeResized.current = .engine resizeEngineW := by
  show effectSetup ipZero resizeData 1000 800 = _
  unfold effectSetup
  rw [resizeData_simNodes]
  norm_num [show resizeData.nodes.isEmpty = false from rfl,
    show resizeData.links = ([] : List PolicyLink) from rfl, resolveLinks_nil,
    resizeEngineW, identityTransform]

/-- C1 counterexample: with a one-node graph, after the simulation has
accumulated motion (one tick of the centering force moves the node from
the origin to the middle of the 800 by 600 view; on this graph the other
three forces contribute nothing), a container resize to 1000 by 800
re-runs the effect, which rebuilds the simulation from fresh copies of
data.nodes: the node is back at its seed position, so the accumulated
position is discarded, contradicting the claim that resize preserves
positions and only re-targets the centering force. -/
theorem c1_resize_discards_positions :
    simPositions resizeTicked = [(400, 300)] ∧
    simPositions resizeResized = [(0, 0)] ∧
    simPositions resizeResized ≠ simPositions resizeTicked := by
  have ht : simPositions resizeTicked = [(400, 300)] := by
    simp [simPositions, resizeTicked_current, resizeTickedEngine]
  have hr : simPositions resizeResized = [(0, 0)] := by
    simp [simPositions, resizeResized_current, resizeEngineW]
  refine ⟨ht, hr, ?_⟩
  rw [ht, hr]
  simp only [ne_eq, List.cons.injEq, Prod.mk.injEq, and_true]
  norm_num

/-- C1 amended: a dimension change re-runs the effect exactly like a full
graph replacement: the new engine depends only on the data and the new
dimensions (so accumulated positions are discarded and the node array is
rebuilt from fresh copies of data.nodes), the centering force is aimed at
the middle of the new dimensions, the new simulation starts hot, and the
prior simulation is stopped and retired by the cleanup. -/
theorem c1_resize_rebuilds_from_data (c c2 : ComponentState) (ip : Nat → ℚ × ℚ)
    (data : GraphData) (w h : ℚ) (e : Engine)
    (he : (rerender c ip data w h).current = .engine e) :
    ((rerender c ip data w h).current = (rerender c2 ip data w h).current) ∧
    e.centerTarget = (w/2, h/2) ∧
    e.sim.nodes = buildSimNodes ip data.nodes ∧
    e.sim.alpha = 1 ∧
    e.sim.running = true ∧
    (∀ eo : Engine, c.current = .engine eo →
      (rerender c ip data w h).retired = stopSim eo.sim :: c.retired ∧
      (stopSim eo.sim).running = false) := by
  constructor
  · rfl
  · have hretired : ∀ eo : Engine, c.current = .engine eo →
        (rerender c ip data w h).retired = stopSim eo.sim :: c.retired ∧
        (stopSim eo.sim).running = false := by
      intro eo heo
      constructor
      · show cleanupCurrent c.current c.retired = _
        rw [heo]
        rfl
      · rfl

    have he2 : effectSetup ip data w h = SetupResult.engine e := he
    unfold effectSetup at he2
    split at he2
    · exact absurd he2 (by simp)
    · split at he2
      · exact absurd he2 (by simp)
      · injection he2 with h2
        subst h2
        exact ⟨rfl, rfl, rfl, rfl, hretired⟩

theorem c1_resize_rebuilds_from_data_witness :
    (rerender resizeTicked ipZero resizeData 1000 800).current =
      (rerender resizeMounted ipZero resizeData 1000 800).current ∧
    resizeEngineW.centerTarget = (1000/2, 800/2) ∧
    resizeEngineW.sim.nodes = buildSimNodes ipZero resizeData.nodes ∧
    (rerender resizeTicked ipZero resizeData 1000 800).retired =
      stopSim resizeTickedEngine.sim :: resizeTicked.retired := by
  have h := c1_resize_rebuilds_from_data resizeTicked resizeMounted ipZero resizeData
    1000 800 resizeEngineW resizeResized_current
  exact ⟨h.1, h.2.1, h.2.2.1, (h.2.2.2.2.2 resizeTickedEngine resizeTicked_current).1⟩

theorem cleanupCurrent_stopped (cur : SetupResult) (r : List SimState)
    (hr : ∀ t ∈ r, t.running = false) :
    ∀ t ∈ cleanupCurrent cur r, t.running = false := by
  cases cur with
  | noop => exact hr
  | thrown m => exact hr
  | engine e =>
    intro t ht
    simp only [cleanupCurrent, List.mem_cons] at ht
    rcases ht with h | h
    · rw [h]; rfl
    · exact hr t h

/-- C7: stopping the simulation is idempotent, a stopped simulation is
never ticked again by the stepper (so no node position is mutated after
stop), and the React effect lifecycle retires only stopped simulations:
every re-run of the effect (graph replacement or dimension change) and
the unmount teardown first execute the cleanup of line 186, which stops
the prior simulation, before or without a new one being created. -/
theorem c7_stop_idempotent_lifecycle (cfg : SimConfig) (fLink fCharge fCollide : Force)
    (cx cy : ℚ) (s : SimState) (c : ComponentState) (ip : Nat → ℚ × ℚ)
    (data : GraphData) (w h : ℚ)
    (hretired : ∀ t ∈ c.retired, t.running = false) :
    stopSim (stopSim s) = stopSim s ∧
    (stopSim s).running = false ∧
    scheduledStep cfg fLink fCharge fCollide cx cy (stopSim s) = stopSim s ∧
    (∀ t ∈ (rerender c ip data w h).retired, t.running = false) ∧
    (∀ t ∈ (unmountC c).retired, t.running = false) := by
  refine ⟨rfl, rfl, ?_, ?_, ?_⟩
  · simp [scheduledStep, stopSim]
  · exact cleanupCurrent_stopped c.current c.retired hretired
  · exact cleanupCurrent_stopped c.current c.retired hretired

theorem c7_stop_idempotent_lifecycle_witness :
    stopSim (stopSim clickSim) = stopSim clickSim ∧
    (stopSim clickSim).running = false ∧
    scheduledStep cfg50 idForce idForce idForce 0 0 (stopSim clickSim) = stopSim clickSim := by
  have h := c7_stop_idempotent_lifecycle cfg50 idForce idForce idForce 0 0 clickSim
    { current := SetupResult.noop, retired := [] } ipZero { nodes := [], links := [] } 800 600
    (by intro t ht; simp at ht)
  exact ⟨h.1, h.2.1, h.2.2.1⟩

theorem foldl_dragged_pins (i : Nat) (d : SimNode) :
    ∀ (moves : List (ℚ × ℚ)) (st : SimState) (a b : Option ℚ),
      st.nodes[i]? = some { d with fx := a, fy := b } →
      ∃ a2 b2, (moves.foldl (fun st p => dragged p.1 p.2 st i) st).nodes[i]? =
        some { d with fx := a2, fy := b2 }
  | [], _, a, b, h => ⟨a, b, h⟩
  | p :: ps, st, a, b, h => by
    apply foldl_dragged_pins i d ps (dragged p.1 p.2 st i) (some p.1) (some p.2)
    simp [dragged, getElem?_modifyIdx_self, h]

/-- C4 counterexample: a press followed by a single one-pixel pointer move
and release has movement strictly under the two-pixel threshold the spec
names, yet the selection callback is never invoked: the default d3 drag
clickDistance is zero, so any nonzero movement latches the moved flag and
suppresses the ensuing click. -/
theorem c4_small_move_suppresses_click :
    dist2 (1, 0) (0, 0) < 2 * 2 ∧
    (runNodeGesture clickSim 0 microMoveGesture).clicks = [] := by
  have hm : gestureMoved microMoveGesture = true := by
    simp only [gestureMoved, microMoveGesture, dist2, clickDistance2D3, List.any_cons,
      List.any_nil, Bool.or_false, decide_eq_true_eq]
    norm_num
  constructor
  · norm_num [dist2]
  · simp [runNodeGesture, hm]

/-- C4 amended: the disambiguation threshold the code implements is zero
movement, not two pixels, and duration plays no role. A press-release
sequence on a node with no pointer movement invokes the selection
callback exactly once, synchronously, with the full node object, and a
sequence with any nonzero movement never invokes it; in every case the
gesture ends with the pin cleared (fx and fy null). -/
theorem c4_click_vs_drag (s : SimState) (i : Nat) (d : SimNode) (g : Gesture)
    (hd : s.nodes[i]? = some d) :
    ((runNodeGesture s i g).final.nodes[i]?.map (fun n => (n.fx, n.fy)) =
      some (none, none)) ∧
    (gestureMoved g = false →
      ∃ n, (runNodeGesture s i g).clicks = [n] ∧ n.id = d.id ∧ n.label = d.label ∧
        n.group = d.group ∧ n.description = d.description ∧ n.fx = none ∧ n.fy = none) ∧
    (gestureMoved g = true → (runNodeGesture s i g).clicks = []) := by
  have h1 : (dragstarted false s i).nodes[i]? =
      some { d with fx := some d.x, fy := some d.y } := by
    simp [dragstarted, restartSim, getElem?_modifyIdx_self, hd]
  obtain ⟨a2, b2, h2⟩ :=
    foldl_dragged_pins i d g.moves (dragstarted false s i) (some d.x) (some d.y) h1
  have h3 : (dragended false (g.moves.foldl (fun st p => dragged p.1 p.2 st i)
      (dragstarted false s i)) i).nodes[i]? = some { d with fx := none, fy := none } := by
    simp [dragended, getElem?_modifyIdx_self, h2]
  refine ⟨?_, ?_, ?_⟩
  · simp [runNodeGesture, h3]
  · intro hm
    refine ⟨{ d with fx := none, fy := none }, ?_, rfl, rfl, rfl, rfl, rfl, rfl⟩
    simp [runNodeGesture, hm, h3]
  · intro hm
    simp [runNodeGesture, hm]

theorem c4_click_vs_drag_witness :
    (∃ n, (runNodeGesture clickSim 0 stillGesture).clicks = [n] ∧
      n.id = clickNode.id ∧ n.label = clickNode.label ∧ n.group = clickNode.group ∧
      n.description = clickNode.description ∧ n.fx = none ∧ n.fy = none) ∧
    (runNodeGesture clickSim 0 stillGesture).final.nodes[0]?.map (fun n => (n.fx, n.fy)) =
      some (none, none) := by
  have h := c4_click_vs_drag clickSim 0 clickNode stillGesture rfl
  exact ⟨h.2.1 rfl, h.1⟩

theorem c3_drag_pin_lifecycle_witness :
    (dragstarted false clickSim 0).nodes[0]? =
      some { clickNode with fx := some 0, fy := some 0 } ∧
    (dragged 5 7 clickSim 0).nodes[0]? =
      some { clickNode with fx := some 5, fy := some 7 } ∧
    (dragended false clickSim 0).nodes[0]? =
      some { clickNode with fx := none, fy := none } := by
  have h := c3_drag_pin_lifecycle clickSim 0 clickNode 0 0 5 7 rfl rfl rfl
  exact ⟨h.1.2.2, h.2.1.1, h.2.2.2⟩

theorem getElem?_set_of_lt_of_le {α : Type} (l : List α) (v : α) (a b n : Nat)
    (ha : a < n) (hb : n ≤ b) : (l.set b v)[a]? = l[a]? :=
  List.getElem?_set_ne (Nat.ne_of_gt (lt_of_lt_of_le ha hb))

theorem writeNodes_linkObjs : ∀ (ps : List (Nat × JSNode)) (h : JSHeap),
    (writeNodes h ps).linkObjs = h.linkObjs
  | [], _ => rfl
  | p :: ps, h => writeNodes_linkObjs ps (writeNode h p.1 p.2)

theorem writeLinks_nodeObjs : ∀ (ps : List (Nat × JSLink)) (h : JSHeap),
    (writeLinks h ps).nodeObjs = h.nodeObjs
  | [], _ => rfl
  | p :: ps, h => writeLinks_nodeObjs ps (writeLink h p.1 p.2)

theorem writeNodes_preserve (n : Nat) : ∀ (ps : List (Nat × JSNode)) (h : JSHeap) (a : Nat),
    a < n → (∀ p ∈ ps, n ≤ p.1) →
    (writeNodes h ps).nodeObjs[a]? = h.nodeObjs[a]?
  | [], _, _, _, _ => rfl
  | p :: ps, h, a, ha, hp => by
    have h1 := writeNodes_preserve n ps (writeNode h p.1 p.2) a ha
      (fun q hq => hp q (List.mem_cons_of_mem _ hq))
    calc (writeNodes h (p :: ps)).nodeObjs[a]?
        = (writeNode h p.1 p.2).nodeObjs[a]? := h1
      _ = h.nodeObjs[a]? :=
        getElem?_set_of_lt_of_le _ _ a p.1 n ha (hp p (List.mem_cons_self _ _))

theorem writeLinks_preserve (n : Nat) : ∀ (ps : List (Nat × JSLink)) (h : JSHeap) (a : Nat),
    a < n → (∀ p ∈ ps, n ≤ p.1) →
    (writeLinks h ps).linkObjs[a]? = h.linkObjs[a]?
  | [], _, _, _, _ => rfl
  | p :: ps, h, a, ha, hp => by
    have h1 := writeLinks_preserve n ps (writeLink h p.1 p.2) a ha
      (fun q hq => hp q (List.mem_cons_of_mem _ hq))
    calc (writeLinks h (p :: ps)).linkObjs[a]?
        = (writeLink h p.1 p.2).linkObjs[a]? := h1
      _ = h.linkObjs[a]? :=
        getElem?_set_of_lt_of_le _ _ a p.1 n ha (hp p (List.mem_cons_self _ _))

theorem applyOp_preserves (simN simL : List Nat) (nN nL : Nat)
    (hN : ∀ b ∈ simN, nN ≤ b) (hL : ∀ b ∈ simL, nL ≤ b)
    (h : JSHeap) (op : EngineOp) (a : Nat) :
    (a < nN → (applyOp simN simL h op).nodeObjs[a]? = h.nodeObjs[a]?) ∧
    (a < nL → (applyOp simN simL h op).linkObjs[a]? = h.linkObjs[a]?) := by
  have hzipN : ∀ (vs : List JSNode) (p : Nat × JSNode), p ∈ simN.zip vs → nN ≤ p.1 := by
    intro vs p hp
    exact hN p.1 (List.of_mem_zip hp).1
  have hzipL : ∀ (vs : List JSLink) (p : Nat × JSLink), p ∈ simL.zip vs → nL ≤ p.1 := by
    intro vs p hp
    exact hL p.1 (List.of_mem_zip hp).1
  cases op with
  | tick f =>
    constructor
    · intro ha
      exact writeNodes_preserve nN _ h a ha (hzipN _)
    · intro _
      rw [show applyOp simN simL h (.tick f) = writeNodes h _ from rfl, writeNodes_linkObjs]
  | dragStart k =>
    cases hk : simN[k]? with
    | some b =>
      have hb : nN ≤ b := hN b (List.getElem?_mem hk)
      constructor
      · intro ha
        simp only [applyOp, hk]
        exact getElem?_set_of_lt_of_le _ _ a b nN ha hb
      · intro _
        simp only [applyOp, hk]
        rfl
    | none =>
      constructor <;> intro _ <;> simp only [applyOp, hk]
  | dragMove k ex ey =>
    cases hk : simN[k]? with
    | some b =>
      have hb : nN ≤ b := hN b (List.getElem?_mem hk)
      constructor
      · intro ha
        simp only [applyOp, hk]
        exact getElem?_set_of_lt_of_le _ _ a b nN ha hb
      · intro _
        simp only [applyOp, hk]
        rfl
    | none =>
      constructor <;> intro _ <;> simp only [applyOp, hk]
  | dragEnd k =>
    cases hk : simN[k]? with
    | some b =>
      have hb : nN ≤ b := hN b (List.getElem?_mem hk)
      constructor
      · intro ha
        simp only [applyOp, hk]
        exact getElem?_set_of_lt_of_le _ _ a b nN ha hb
      · intro _
        simp only [applyOp, hk]
        rfl
    | none =>
      constructor <;> intro _ <;> simp only [applyOp, hk]
  | resolve f =>
    constructor
    · intro _
      rw [show applyOp simN simL h (.resolve f) = writeLinks h _ from rfl, writeLinks_nodeObjs]
    · intro ha
      exact writeLinks_preserve nL _ h a ha (hzipL _)
  | zoomPan t => exact ⟨fun _ => rfl, fun _ => rfl⟩
  | click k => exact ⟨fun _ => rfl, fun _ => rfl⟩

theorem applyOps_preserves (simN simL : List Nat) (nN nL : Nat)
    (hN : ∀ b ∈ simN, nN ≤ b) (hL : ∀ b ∈ simL, nL ≤ b) (a : Nat) :
    ∀ (ops : List EngineOp) (h : JSHeap),
    (a < nN → (applyOps simN simL h ops).nodeObjs[a]? = h.nodeObjs[a]?) ∧
    (a < nL → (applyOps simN simL h ops).linkObjs[a]? = h.linkObjs[a]?)
  | [], _ => ⟨fun _ => rfl, fun _ => rfl⟩
  | op :: ops, h => by
    have h1 := applyOp_preserves simN simL nN nL hN hL h op a
    have h2 := applyOps_preserves simN simL nN nL hN hL a ops (applyOp simN simL h op)
    exact ⟨fun ha => (h2.1 ha).trans (h1.1 ha), fun ha => (h2.2 ha).trans (h1.2 ha)⟩

/-- C10: the engine never mutates the caller objects. The render pass
allocates fresh shallow copies of every node and of every link
(data.nodes.map and data.links.map with object spread, lines 61 and 62),
and every subsequent operation (tick with an arbitrary force computation,
the three drag handlers, forceLink endpoint resolution, zoom or pan, and
node clicks) writes only at copy addresses, so after any sequence of
operations every caller node and link object reads back unchanged. -/
theorem c10_input_not_mutated (h0 : JSHeap) (nAddrs lAddrs : List Nat)
    (ops : List EngineOp) (a : Nat) :
    (setupHeap h0 nAddrs lAddrs).nodeObjs = h0.nodeObjs ++ readNodes h0 nAddrs ∧
    (a < h0.nodeObjs.length →
      (runEngineOps h0 nAddrs lAddrs ops).nodeObjs[a]? = h0.nodeObjs[a]?) ∧
    (a < h0.linkObjs.length →
      (runEngineOps h0 nAddrs lAddrs ops).linkObjs[a]? = h0.linkObjs[a]?) := by
  have hN : ∀ b ∈ simNodeAddrs h0 nAddrs, h0.nodeObjs.length ≤ b := by
    intro b hb
    simp only [simNodeAddrs, List.mem_map, List.mem_range] at hb
    obtain ⟨j, _, rfl⟩ := hb
    exact Nat.le_add_right _ _
  have hL : ∀ b ∈ simLinkAddrs h0 lAddrs, h0.linkObjs.length ≤ b := by
    intro b hb
    simp only [simLinkAddrs, List.mem_map, List.mem_range] at hb
    obtain ⟨j, _, rfl⟩ := hb
    exact Nat.le_add_right _ _
  have hsetupN : ∀ ha : a < h0.nodeObjs.length,
      (setupHeap h0 nAddrs lAddrs).nodeObjs[a]? = h0.nodeObjs[a]? := by
    intro ha
    show (h0.nodeObjs ++ readNodes h0 nAddrs)[a]? = _
    rw [List.getElem?_append]
    simp [ha]
  have hsetupL : ∀ ha : a < h0.linkObjs.length,
      (setupHeap h0 nAddrs lAddrs).linkObjs[a]? = h0.linkObjs[a]? := by
    intro ha
    show (h0.linkObjs ++ readLinks h0 lAddrs)[a]? = _
    rw [List.getElem?_append]
    simp [ha]
  have hops := applyOps_preserves (simNodeAddrs h0 nAddrs) (simLinkAddrs h0 lAddrs)
    h0.nodeObjs.length h0.linkObjs.length hN hL a ops (setupHeap h0 nAddrs lAddrs)
  exact ⟨rfl, fun ha => (hops.1 ha).trans (hsetupN ha),
    fun ha => (hops.2 ha).trans (hsetupL ha)⟩

theorem c10_input_not_mutated_witness :
    (runEngineOps heap0 [0] [0] heapOps).nodeObjs[0]? = heap0.nodeObjs[0]? ∧
    (runEngineOps heap0 [0] [0] heapOps).linkObjs[0]? = heap0.linkObjs[0]? := by
  have h := c10_input_not_mutated heap0 [0] [0] heapOps 0
  exact ⟨h.2.1 (by norm_num [heap0]), h.2.2 (by norm_num [heap0])⟩

end NG
